import Mathlib

/-!
Verification development for the MTA turnstile analysis pipeline.

The development shallowly embeds the three modules of the repository:

* `preprocessing.py` — `cleanse_data`, `strip_spaces`, `check_column_names`:
  cleaning raw cumulative turnstile readings into per-interval deltas;
* `import_data.py` — `import_data`, `find_links`: discovering dated CSV links
  on the catalog page and fetching them over a date range;
* `utils.py` — `weekday_weekend_traffic_differences`: per-station
  weekday-vs-weekend traffic differentials for one week.

DataFrames are modelled as lists of typed rows (plus an explicit column list
where column-name validation matters).  Machine floats only ever hold exact
integer counts or means of integer counts in this program, so deltas are
modelled as `Int` and means as `Rat`.  External collaborators (HTTP fetching,
`pd.read_csv`, `pd.to_datetime` of free-form catalog text, the station
coordinate CSV) are passed in as explicit function/table parameters.

Python-level failure behaviour is modelled with `Except PyExc`: notably,
`assert <expr>` on a freshly constructed exception object always passes
(the object is truthy), and mentioning an undefined name such as
`HTTPError` or `RunTimeError` raises `NameError` at the point of use.
-/

/-- Python exception kinds that the embedded code can surface. -/
inductive PyExc where
  | nameError
  | typeError
  | valueError
  | keyError
  | assertionError
  | httpError
deriving DecidableEq, Repr

/-- Python `assert cond`: raises `AssertionError` exactly when `cond` is
falsy.  `assert ValueError(...)` asserts a freshly constructed exception
object, which is always truthy, so such an assert can never fire. -/
def pyAssert (cond : Bool) : Except PyExc Unit :=
  if cond then Except.ok () else Except.error PyExc.assertionError

/-- Truthiness of a constructed exception object such as `ValueError(msg)`:
always `true` in Python. -/
def exceptionObjTruthy : Bool := true

/-! ### Character/string helpers

Core `String` functions such as `String.trim`, `String.splitOn` and the
`String` order go through iterator loops that the kernel cannot evaluate, so
the embedding works on the underlying character lists with structurally
recursive functions. -/

/-- Whitespace characters stripped by Python `str.strip()` (the ones that can
occur in this data). -/
def isPySpace (c : Char) : Bool :=
  c = ' ' || c = '\t' || c = '\n' || c = '\r'

/-- Strip leading and trailing whitespace from a character list. -/
def trimChars (l : List Char) : List Char :=
  ((l.dropWhile isPySpace).reverse.dropWhile isPySpace).reverse

/-- Python `str.strip()` on a string (also what `pandas.Series.str.strip`
applies cell-wise). -/
def pyStrip (s : String) : String := String.mk (trimChars s.data)

/-- Split a character list on a separator character (like `str.split(sep)`
for a one-character separator). -/
def splitChar (sep : Char) : List Char → List (List Char)
  | [] => [[]]
  | c :: cs =>
    match splitChar sep cs with
    | [] => if c = sep then [[], []] else [[c]]
    | g :: gs => if c = sep then [] :: g :: gs else (c :: g) :: gs

/-- Interpret a nonempty all-digit character list as a decimal number
(`int(s)` on a digits-only field, as `strptime` does per component). -/
def digitsVal : List Char → Option Nat
  | [] => none
  | l =>
    if l.all Char.isDigit then
      some (l.foldl (fun n c => n * 10 + (c.toNat - 48)) 0)
    else none

/-- Code-point lexicographic order on character lists — the order Python uses
to compare strings (and pandas uses to sort string columns). -/
def charListLt : List Char → List Char → Bool
  | [], [] => false
  | [], _ :: _ => true
  | _ :: _, [] => false
  | a :: as, b :: bs =>
    if a.toNat < b.toNat then true
    else if b.toNat < a.toNat then false
    else charListLt as bs

/-- Python string `<`. -/
def strLt (a b : String) : Bool := charListLt a.data b.data

/-- Does `pat` occur as a contiguous substring of `l` (Python `in`)? -/
def containsSub (pat : List Char) : List Char → Bool
  | [] => pat.isEmpty
  | c :: cs => pat.isPrefixOf (c :: cs) || containsSub pat cs

/-! ### Calendar arithmetic

`pd.to_datetime(..., format="%m/%d/%Y %H:%M:%S")`, `Timestamp.weekday()`
(Monday = 0), `Timestamp.week` (ISO week number) and `Timestamp.hour`,
re-implemented over a record of calendar fields. -/

/-- A parsed timestamp (proleptic Gregorian calendar). -/
structure PDateTime where
  year : Nat
  month : Nat
  day : Nat
  hour : Nat
  minute : Nat
  second : Nat
deriving DecidableEq, Repr

/-- Is `y` a (Gregorian) leap year? -/
def isLeap (y : Nat) : Bool := (y % 4 = 0 && y % 100 ≠ 0) || y % 400 = 0

/-- Number of days in month `m` of year `y`. -/
def daysInMonth (y m : Nat) : Nat :=
  if m = 2 then (if isLeap y then 29 else 28)
  else if m = 4 || m = 6 || m = 9 || m = 11 then 30
  else 31

/-- Encode a timestamp as a single number so that the encoding is strictly
monotone in calendar order; used as the sort key for `DATETIME`. -/
def PDateTime.key (t : PDateTime) : Nat :=
  ((((t.year * 16 + t.month) * 32 + t.day) * 24 + t.hour) * 60 + t.minute) * 60
    + t.second

/-- Parse `DATE + ' ' + TIME` with the fixed format
`"%m/%d/%Y %H:%M:%S"`, validating field ranges the way `strptime` does.
Returns `none` exactly when `pd.to_datetime` would raise `ValueError`. -/
def parseDatetime (d t : String) : Option PDateTime :=
  match splitChar '/' d.data, splitChar ':' t.data with
  | [ms, ds, ys], [hs, mins, ss] =>
    match digitsVal ms, digitsVal ds, digitsVal ys,
          digitsVal hs, digitsVal mins, digitsVal ss with
    | some m, some dd, some y, some h, some mi, some s =>
      if 1 ≤ m && m ≤ 12 && 1 ≤ dd && dd ≤ daysInMonth y m
          && h ≤ 23 && mi ≤ 59 && s ≤ 59 then
        some ⟨y, m, dd, h, mi, s⟩
      else none
    | _, _, _, _, _, _ => none
  | _, _ => none

/-- Days since 1970-01-01 of a civil date (Hinnant's `days_from_civil`;
valid for the truncating/Euclidean division used here because every quotient
that can be negative is exactly divisible). -/
def daysFromCivil (y m d : Int) : Int :=
  let y' := y - (if m ≤ 2 then 1 else 0)
  let era := (if 0 ≤ y' then y' else y' - 399) / 400
  let yoe := y' - era * 400
  let mp := (m + 9) % 12
  let doy := (153 * mp + 2) / 5 + d - 1
  let doe := yoe * 365 + yoe / 4 - yoe / 100 + doy
  era * 146097 + doe - 719468

/-- Python `datetime.weekday()`: Monday = 0 … Sunday = 6.
1970-01-01 (day 0) was a Thursday. -/
def pyWeekday (t : PDateTime) : Nat :=
  ((daysFromCivil (Int.ofNat t.year) (Int.ofNat t.month) (Int.ofNat t.day) + 3)
    % 7).toNat

/-- Ordinal day of the year (Jan 1 = 1). -/
def dayOfYear (t : PDateTime) : Nat :=
  ((List.range (t.month - 1)).map (fun i => daysInMonth t.year (i + 1))).sum
    + t.day

/-- Helper for the ISO week-count rule. -/
def isoP (y : Nat) : Nat := (y + y / 4 - y / 100 + y / 400) % 7

/-- Number of ISO weeks in year `y` (52 or 53). -/
def isoWeeksInYear (y : Nat) : Nat :=
  if isoP y = 4 || isoP (y - 1) = 3 then 53 else 52

/-- `pandas.Timestamp.week`: the ISO week number of the date. -/
def isoWeek (t : PDateTime) : Nat :=
  let wd := pyWeekday t + 1
  let w := (dayOfYear t + 10 - wd) / 7
  if w < 1 then isoWeeksInYear (t.year - 1)
  else if w > isoWeeksInYear t.year then 1
  else w

/-- The fixed Monday-first weekday-name table of `cleanse_data`. -/
def days_of_the_week (n : Nat) : String :=
  if n = 0 then "Monday"
  else if n = 1 then "Tuesday"
  else if n = 2 then "Wednesday"
  else if n = 3 then "Thursday"
  else if n = 4 then "Friday"
  else if n = 5 then "Saturday"
  else "Sunday"

/-! ### `preprocessing.py` -/

/-- One raw MTA reading: the eleven columns of the published CSVs, with the
two cumulative counters as integers and everything else as text. -/
structure RawRow where
  ca : String
  unit : String
  scp : String
  station : String
  linename : String
  division : String
  date : String
  time : String
  desc : String
  entries : Int
  exits : Int
deriving DecidableEq, Repr

/-- A raw DataFrame: its header names plus its rows.  The row fields are
bound to the eleven header positions; `cleanse_data` accesses columns by
name, so a frame whose header set deviates from the expected names is still
representable (accesses to missing names raise `KeyError`). -/
structure RawFrame where
  columns : List String
  rows : List RawRow
deriving DecidableEq, Repr

/-- `strip_spaces`: strips leading/trailing whitespace from every cell of
every `object` (string) column; the numeric ENTRIES/EXITS columns are not
`object` dtype and are untouched. -/
def strip_spaces (r : RawRow) : RawRow :=
  { ca := pyStrip r.ca, unit := pyStrip r.unit, scp := pyStrip r.scp,
    station := pyStrip r.station, linename := pyStrip r.linename,
    division := pyStrip r.division, date := pyStrip r.date,
    time := pyStrip r.time, desc := pyStrip r.desc,
    entries := r.entries, exits := r.exits }

/-- The header names `check_column_names` validates against. -/
def correct_column_names : List String :=
  ["C/A", "UNIT", "SCP", "STATION", "LINENAME", "DIVISION", "DATE",
   "TIME", "DESC", "ENTRIES", "EXITS"]

/-- Embeds `preprocessing.check_column_names`.  Both validation branches in
the source run `assert ValueError(...)`; the assert is applied to a freshly
constructed exception object, which is truthy, so neither assert can ever
fire.  The only exception this function can actually raise comes from the
pandas comparison `(columns != correct_column_names)`, which raises
`ValueError` when the two lengths differ (before `.any()` is evaluated). -/
def check_column_names (columns : List String) : Except PyExc Unit := do
  if columns.length ≠ correct_column_names.length then
    pyAssert exceptionObjTruthy
  let anyNe ←
    (if columns.length ≠ correct_column_names.length then
      Except.error PyExc.valueError
    else
      Except.ok (columns ≠ correct_column_names : Bool))
  if anyNe then
    pyAssert exceptionObjTruthy

/-- A reading after the DATETIME merge and TURNSTILE_ID construction. -/
structure TRow where
  ca : String
  unit : String
  scp : String
  station : String
  linename : String
  division : String
  date : String
  time : String
  desc : String
  entriesCum : Int
  exitsCum : Int
  datetime : PDateTime
  turnstile_id : String
deriving DecidableEq, Repr

/-- Build the merged/keyed row:
`TURNSTILE_ID = C/A + '_' + UNIT + '_' + SCP + '_' + STATION`. -/
def mkTRow (r : RawRow) (dt : PDateTime) : TRow :=
  { ca := r.ca, unit := r.unit, scp := r.scp, station := r.station,
    linename := r.linename, division := r.division, date := r.date,
    time := r.time, desc := r.desc, entriesCum := r.entries,
    exitsCum := r.exits, datetime := dt,
    turnstile_id := r.ca ++ "_" ++ r.unit ++ "_" ++ r.scp ++ "_" ++ r.station }

/-- `df.sort_values(["TURNSTILE_ID", "DATETIME"])` comparison: lexicographic
on (TURNSTILE_ID, DATETIME) ascending. -/
def rowLe (a b : TRow) : Bool :=
  strLt a.turnstile_id b.turnstile_id ||
    (a.turnstile_id == b.turnstile_id && a.datetime.key ≤ b.datetime.key)

/-- Insert into a `rowLe`-sorted list. -/
def insertRow (a : TRow) : List TRow → List TRow
  | [] => [a]
  | b :: bs => if rowLe a b then a :: b :: bs else b :: insertRow a bs

/-- Sort rows by (TURNSTILE_ID, DATETIME) ascending.  (`sort_values` uses an
unstable quicksort, so any sorted rearrangement is a faithful model; this is
an insertion sort so that concrete runs evaluate in the kernel.) -/
def sortRows : List TRow → List TRow
  | [] => []
  | a :: as => insertRow a (sortRows as)

/-- Lines 30–34 of `preprocessing.py`: columnwise `diff()` of the sorted
frame, followed by the device-boundary mask — row 0 of the frame and every
row whose TURNSTILE_ID differs from the previous row's get null deltas.  The
first argument carries the previous row of the full sorted sequence. -/
def diffMask : Option TRow → List TRow → List (TRow × Option Int × Option Int)
  | _, [] => []
  | none, r :: rs => (r, none, none) :: diffMask (some r) rs
  | some p, r :: rs =>
    (if p.turnstile_id = r.turnstile_id then
      (r, some (r.entriesCum - p.entriesCum), some (r.exitsCum - p.exitsCum))
    else (r, none, none)) :: diffMask (some r) rs

/-- A deaggregated row: the cumulative columns are dropped and the diff
columns renamed to ENTRIES/EXITS (lines 37–43). -/
structure DRow where
  ca : String
  unit : String
  scp : String
  station : String
  linename : String
  division : String
  date : String
  time : String
  desc : String
  datetime : PDateTime
  turnstile_id : String
  entries : Int
  exits : Int
deriving DecidableEq, Repr

/-- Rebind a masked row with concrete deltas. -/
def mkDRow (r : TRow) (e x : Int) : DRow :=
  { ca := r.ca, unit := r.unit, scp := r.scp, station := r.station,
    linename := r.linename, division := r.division, date := r.date,
    time := r.time, desc := r.desc, datetime := r.datetime,
    turnstile_id := r.turnstile_id, entries := e, exits := x }

/-- `df.dropna(how='any')` on the masked frame, then dropping the cumulative
columns and renaming the diffs: keeps exactly the rows whose deltas are
non-null. -/
def dropnaRename (l : List (TRow × Option Int × Option Int)) : List DRow :=
  l.filterMap fun x =>
    match x with
    | (r, some e, some xx) => some (mkDRow r e xx)
    | _ => none

/-- The whole deaggregation step applied to the sorted frame. -/
def deaggregate (l : List TRow) : List DRow := dropnaRename (diffMask none l)

/-- Lines 46–49 of `preprocessing.py`, kept exactly as written: the fourth
filter repeats `ENTRIES > 0` instead of testing `EXITS > 0`. -/
def anomalyFilter (l : List DRow) : List DRow :=
  ((((l.filter fun r => r.entries < 3000).filter fun r =>
      r.entries > 0).filter fun r => r.exits < 3000).filter fun r =>
      r.entries > 0)

/-- A fully normalized reading (plus the coordinate columns merged in). -/
structure CleanRow where
  ca : String
  unit : String
  scp : String
  station : String
  linename : String
  division : String
  date : String
  time : String
  desc : String
  datetime : PDateTime
  turnstile_id : String
  entries : Int
  exits : Int
  wdayNum : Nat
  weekdayName : String
  week : Nat
  hour : Nat
  latitude : Int
  longitude : Int
deriving DecidableEq, Repr

/-- One row of the station-coordinates lookup table (the external
`./datasets/station_coordinates.csv`, passed in as a table). -/
structure CoordRow where
  station : String
  latitude : Int
  longitude : Int
deriving DecidableEq, Repr

/-- WDAY/WEEKDAY/WEEK/HOUR derivation plus `astype(int)` (the deltas are
already whole numbers, so the cast is the identity), pending coordinates. -/
def addCalendar (r : DRow) (la lo : Int) : CleanRow :=
  { ca := r.ca, unit := r.unit, scp := r.scp, station := r.station,
    linename := r.linename, division := r.division, date := r.date,
    time := r.time, desc := r.desc, datetime := r.datetime,
    turnstile_id := r.turnstile_id, entries := r.entries, exits := r.exits,
    wdayNum := pyWeekday r.datetime,
    weekdayName := days_of_the_week (pyWeekday r.datetime),
    week := isoWeek r.datetime, hour := r.datetime.hour,
    latitude := la, longitude := lo }

/-- `pd.merge(df, station_coordinates, on="STATION")`: inner join preserving
left-frame row order, right matches in right-table order. -/
def mergeCoords (coords : List CoordRow) (l : List DRow) : List CleanRow :=
  l.flatMap fun r =>
    (coords.filter fun c => c.station == r.station).map fun c =>
      addCalendar r c.latitude c.longitude

/-- The DATETIME merge (line 23): `pd.to_datetime` with the fixed format
raises `ValueError` if any row's DATE/TIME fails to parse; then the
TURNSTILE_ID construction (line 26). -/
def toTRows (rows : List RawRow) : Except PyExc (List TRow) :=
  rows.mapM fun r =>
    match parseDatetime r.date r.time with
    | some dt => Except.ok (mkTRow r dt)
    | none => Except.error PyExc.valueError

/-- Pure tail of `cleanse_data` after the DATETIME/TURNSTILE_ID step:
sort, diff, mask, dropna, drop/rename, anomaly filter, calendar columns,
coordinate merge. -/
def cleanse_core (coords : List CoordRow) (trows : List TRow) : List CleanRow :=
  mergeCoords coords (anomalyFilter (deaggregate (sortRows trows)))

/-- Embeds `preprocessing.cleanse_data`.  Column accesses `df[name]` on a
missing name raise `KeyError`; they are checked in the order the source
performs them (DATE/TIME before the datetime parse, the remaining accessed
names after it). -/
def cleanse_data (coords : List CoordRow) (f : RawFrame) :
    Except PyExc (List CleanRow) :=
  let cols := f.columns.map pyStrip
  let rows := f.rows.map strip_spaces
  match check_column_names cols with
  | Except.error e => Except.error e
  | Except.ok _ =>
    if !(cols.contains "DATE" && cols.contains "TIME") then
      Except.error PyExc.keyError
    else
      match toTRows rows with
      | Except.error e => Except.error e
      | Except.ok trows =>
        if !(["C/A", "UNIT", "SCP", "STATION", "ENTRIES", "EXITS"].all
            cols.contains) then
          Except.error PyExc.keyError
        else Except.ok (cleanse_core coords trows)

/-! ### `import_data.py`

The HTML fetch/parse collaborators are abstracted: `find_links` receives the
already-parsed anchor list (href attribute plus display text) and a
`parseDate` function standing for `pd.to_datetime` on free-form catalog
text; `import_data` additionally receives a `fetchCsv` function standing for
`pd.read_csv` on a URL, and the time at which the module was imported (the
moment `datetime.datetime.now()` in the `def` line was evaluated). -/

/-- One `<a>` element of the catalog page. -/
structure Anchor where
  href : Option String
  text : String
deriving DecidableEq, Repr

/-- One row of the link table built by `find_links` (display text kept as
the candidate date string, plus the absolute URL). -/
structure LinkRow where
  dateText : String
  url : String
deriving DecidableEq, Repr

/-- The link DataFrame: its rows, plus whether the whole `Date` column was
successfully converted to datetimes.  `pd.to_datetime` on a Series is
all-or-nothing with the default `errors='raise'`: if any single entry fails,
the `ValueError` is caught and the column keeps its raw strings. -/
structure LinksFrame where
  rows : List LinkRow
  datesParsed : Bool
deriving DecidableEq, Repr

/-- The fixed substring marking turnstile data files. -/
def turnstileMarker : String := "data/nyct/turnstile/"

/-- The fixed base path prefixed to each matching href. -/
def mtaBasePath : String := "http://web.mta.info/developers/"

/-- Does this anchor have an href containing the data-path marker? -/
def anchorMatches (a : Anchor) : Bool :=
  match a.href with
  | some h => containsSub turnstileMarker.data h.data
  | none => false

/-- Embeds `import_data.find_links`.  The initial
`assert TypeError('soup must be a BeautifulSoup Object')` asserts a truthy
exception object and can never fire (and is vacuous here, where the anchor
list is typed).  With zero matching links the source executes
`raise RunTimeError(...)`; `RunTimeError` is an undefined name (the builtin
is spelled `RuntimeError`), so evaluating it raises `NameError`.  With at
least one matching link, one (Date, Hyperlink) row is built per matching
anchor; the subsequent whole-column `pd.to_datetime` is wrapped in
`try/except ValueError`, so a failed conversion is only printed and the
column stays unconverted. -/
def find_links (parseDate : String → Option Int) (anchors : List Anchor) :
    Except PyExc LinksFrame :=
  match pyAssert exceptionObjTruthy with
  | Except.error e => Except.error e
  | Except.ok _ =>
    let links := anchors.filterMap fun a =>
      match a.href with
      | some h =>
        if containsSub turnstileMarker.data h.data then
          some ({ dateText := a.text, url := mtaBasePath ++ h } : LinkRow)
        else none
      | none => none
    if links.length = 0 then Except.error PyExc.nameError
    else
      Except.ok
        { rows := links,
          datesParsed := links.all (fun r => (parseDate r.dateText).isSome) }

/-- The boolean mask of line 37:
`(Date > start_date) & (Date <= end_date)`. -/
def dateInRange (startDate endDate d : Int) : Bool :=
  startDate < d && d ≤ endDate

/-- The catalog filter `mta_hyperlinks_df.loc[mask]` applied to a link table
whose `Date` column did convert: keeps exactly the rows whose parsed date is
strictly after `startDate` and at most `endDate`. -/
def filterCatalog (parseDate : String → Option Int) (startDate endDate : Int)
    (links : List LinkRow) : List LinkRow :=
  links.filter fun r =>
    match parseDate r.dateText with
    | some d => dateInRange startDate endDate d
    | none => false

/-- Embeds `import_data.import_data`.

* `startArg`/`endArg` model the `start_date` and `end_date` parameters;
  `endArg = none` models a call that omits `end_date`, in which case the
  default — `datetime.datetime.now()` evaluated once when the module was
  imported, `moduleLoadTime` — is used.
* `start_date > end_date` raises `ValueError` (as does a failed catalog
  fetch, which is out of scope here: the anchors are given).
* When the link table's `Date` column was left unconverted (a date string
  failed to parse), the comparison of a string column with a datetime in the
  mask of line 37 raises `TypeError`.
* The fetch loop wraps each `pd.read_csv(link)` in `except HTTPError:`;
  `HTTPError` is an undefined name in this module, so as soon as any fetch
  raises, evaluating the handler's `HTTPError` raises `NameError`, aborting
  the whole run. -/
def import_data (parseDate : String → Option Int)
    (fetchCsv : String → Except PyExc (List RawRow))
    (startArg : Int) (endArg : Option Int) (moduleLoadTime : Int)
    (anchors : List Anchor) : Except PyExc (List RawRow) :=
  let endDate := endArg.getD moduleLoadTime
  if endDate < startArg then Except.error PyExc.valueError
  else
    match find_links parseDate anchors with
    | Except.error e => Except.error e
    | Except.ok cat =>
      if !cat.datesParsed then Except.error PyExc.typeError
      else
        match (filterCatalog parseDate startArg endDate cat.rows).mapM
            (fun r =>
              match fetchCsv r.url with
              | Except.ok t => Except.ok t
              | Except.error _ => Except.error PyExc.nameError) with
        | Except.error e => Except.error e
        | Except.ok tables => Except.ok tables.flatten

/-! ### `utils.py`

`weekday_weekend_traffic_differences` consumes the normalized table.  Only
the columns the function's output can depend on are modelled: STATION, WDAY,
LATITUDE, LONGITUDE, ENTRIES, EXITS, WEEK (the other columns of the cleansed
frame are either group keys never used or nuisance columns silently dropped
by the `sum()`/`mean()` aggregations).  `groupby(...When, sort=True)` emits
one row per distinct key tuple in ascending key order, which is modelled by
sorting the deduplicated key list with a lexicographic order. -/

/-- A normalized reading as `utils.py` consumes it. -/
structure NRow where
  station : String
  wday : Nat
  latitude : Int
  longitude : Int
  entries : Int
  exits : Int
  week : Nat
deriving DecidableEq, Repr

/-- The input frame of `weekday_weekend_traffic_differences`: its rows, plus
whether the frame carries an `index` column (a leftover of a caller-side
`reset_index()`).  Line 21 of `utils.py` drops the column list
`["WDAY", "index", "WEEK", "HOUR"]`, and `DataFrame.drop` raises `KeyError`
when a listed label is absent, so this flag decides whether the function can
get past that line.  The numeric values of such an `index` column are
aggregated and then dropped, so they are not modelled. -/
structure NFrame where
  hasIndexCol : Bool
  rows : List NRow
deriving DecidableEq, Repr

/-- Lexicographic `≤` on a pair whose first component carries a linear
order, given `≤` on the second component. -/
def lexLe [LinearOrder α] (le2 : β → β → Prop) (p q : α × β) : Prop :=
  p.1 < q.1 ∨ (p.1 = q.1 ∧ le2 p.2 q.2)

instance lexLeDecidable [inst : LinearOrder α] (le2 : β → β → Prop)
    [DecidableRel le2] : DecidableRel (@lexLe α β inst le2) := fun p q =>
  decidable_of_iff (p.1 < q.1 ∨ (p.1 = q.1 ∧ le2 p.2 q.2)) Iff.rfl

/-- Key of the first `groupby`: (STATION, WDAY, LATITUDE, LONGITUDE). -/
abbrev DKey := String × Nat × Int × Int

/-- Key of the second `groupby`: (STATION, WEEKEND, LATITUDE, LONGITUDE). -/
abbrev MKey := String × Bool × Int × Int

/-- Plain `≤` on `Int`, the innermost component order. -/
abbrev intLeP : Int → Int → Prop := fun a b => a ≤ b

/-- Lexicographic order on (LATITUDE, LONGITUDE). -/
abbrev coordLe : Int × Int → Int × Int → Prop := lexLe intLeP

/-- Ascending order on first-groupby keys. -/
abbrev dkeyLe : DKey → DKey → Prop := lexLe (lexLe coordLe)

/-- Ascending order on second-groupby keys (`False < True` for WEEKEND, as
in pandas). -/
abbrev mkeyLe : MKey → MKey → Prop := lexLe (lexLe coordLe)

/-- The first-groupby key of a normalized row. -/
def dkeyOf (r : NRow) : DKey := (r.station, r.wday, r.latitude, r.longitude)

/-- A daily-total row: output of
`groupby(["STATION", "WDAY", "LATITUDE", "LONGITUDE"]).sum()`. -/
structure DailyRow where
  station : String
  wday : Nat
  latitude : Int
  longitude : Int
  entries : Int
  exits : Int
deriving DecidableEq, Repr

/-- Lines 13–15 of `utils.py`: filter to the target week and sum ENTRIES and
EXITS per (STATION, WDAY, LATITUDE, LONGITUDE).  The groupby emits one row
per distinct key, in ascending key order.  (The subsequent
`sort_values(["STATION", "WDAY"], ascending=False)` is re-done by the next
groupby and cannot be observed.)
The daily-total row of one key: ENTRIES and EXITS summed over the key's
member rows. -/
def dailyRowOf (l : List NRow) (k : DKey) : DailyRow :=
  { station := k.1, wday := k.2.1, latitude := k.2.2.1,
    longitude := k.2.2.2,
    entries := ((l.filter fun r => dkeyOf r == k).map NRow.entries).sum,
    exits := ((l.filter fun r => dkeyOf r == k).map NRow.exits).sum }

def groupSumDaily (l : List NRow) : List DailyRow :=
  (((l.map dkeyOf).dedup).insertionSort dkeyLe).map (dailyRowOf l)

/-- Line 17: `daily_entries["WEEKEND"] = daily_entries["WDAY"] > 4`, fused
into the key of the second groupby. -/
def mkeyOf (d : DailyRow) : MKey :=
  (d.station, decide (d.wday > 4), d.latitude, d.longitude)

/-- A per-side mean row: output of
`groupby(["STATION", "WEEKEND", "LATITUDE", "LONGITUDE"]).mean()`. -/
structure MeanRow where
  station : String
  weekend : Bool
  latitude : Int
  longitude : Int
  entries : Rat
  exits : Rat
deriving DecidableEq, Repr

/-- Lines 19–21 (without the column drop): average the daily totals per
(STATION, WEEKEND, LATITUDE, LONGITUDE), one output row per distinct key in
ascending key order (`False` before `True` within a station).
The mean row of one key: ENTRIES and EXITS averaged over the key's member
daily rows. -/
def meanRowOf (daily : List DailyRow) (m : MKey) : MeanRow :=
  { station := m.1, weekend := m.2.1, latitude := m.2.2.1,
    longitude := m.2.2.2,
    entries := (((daily.filter fun d => mkeyOf d == m).map
      fun d => (d.entries : Rat)).sum) /
      (((daily.filter fun d => mkeyOf d == m).length : Rat)),
    exits := (((daily.filter fun d => mkeyOf d == m).map
      fun d => (d.exits : Rat)).sum) /
      (((daily.filter fun d => mkeyOf d == m).length : Rat)) }

def groupMean (daily : List DailyRow) : List MeanRow :=
  (((daily.map mkeyOf).dedup).insertionSort mkeyLe).map (meanRowOf daily)

/-- The second-groupby key determined by a first-groupby key. -/
def mkeyOfKey (k : DKey) : MKey :=
  (k.1, decide (k.2.1 > 4), k.2.2.1, k.2.2.2)

/-- Same (STATION, LATITUDE, LONGITUDE) group — the key of the
`groupby(...).diff(periods=-1)` calls. -/
def sameG (a b : MeanRow) : Bool :=
  a.station == b.station && a.latitude == b.latitude &&
    a.longitude == b.longitude

/-- The next row of the same (STATION, LATITUDE, LONGITUDE) group in the
rest of the frame. -/
def nextInGroup (r : MeanRow) : List MeanRow → Option MeanRow
  | [] => none
  | x :: xs => if sameG r x then some x else nextInGroup r xs

/-- Lines 23–26: `groupby(["STATION", "LATITUDE", "LONGITUDE"]).diff(periods=-1)`
on ENTRIES and EXITS — each row minus the next row of its group, null for
the last row of each group. -/
def diffRows : List MeanRow → List (MeanRow × Option Rat × Option Rat)
  | [] => []
  | x :: xs =>
    (x, (nextInGroup x xs).map fun n => x.entries - n.entries,
        (nextInGroup x xs).map fun n => x.exits - n.exits) :: diffRows xs

/-- One output row: {STATION, LATITUDE, LONGITUDE, Entry_diffs, Exit_diffs}. -/
structure DiffRow where
  station : String
  latitude : Int
  longitude : Int
  entry_diffs : Rat
  exit_diffs : Rat
deriving DecidableEq, Repr

/-- Embeds `utils.weekday_weekend_traffic_differences`.  The mid-pipeline
`drop(["WDAY", "index", "WEEK", "HOUR"], axis=1)` raises `KeyError` whenever
the input frame has no `index` column; otherwise the function finishes with
`dropna(how='any')` (removing the null-diff rows) and the final column
drop. -/
def weekday_weekend_traffic_differences (f : NFrame) (week : Nat) :
    Except PyExc (List DiffRow) :=
  let daily := groupSumDaily (f.rows.filter fun r => r.week == week)
  let means := groupMean daily
  if f.hasIndexCol = false then Except.error PyExc.keyError
  else Except.ok ((diffRows means).filterMap fun x =>
    match x with
    | (r, some de, some dx) =>
      some { station := r.station, latitude := r.latitude,
             longitude := r.longitude, entry_diffs := de, exit_diffs := dx }
    | _ => none)

/-! Spec-side daily totals and side means, written from the specification's
words: the daily total of a station (at given coordinates) on weekday index
`d` of the target week is the sum of its ENTRIES (resp. EXITS) there, and
the weekday (resp. weekend) mean is the average of the daily totals over the
weekday indices `d ≤ 4` (resp. `d > 4`) on which the station was observed. -/

/-- Does row `r` belong to station `s` at `(la, lo)`, day `d`, week `w`? -/
def obsMatch (w : Nat) (s : String) (la lo : Int) (d : Nat) (r : NRow) : Bool :=
  r.week == w && r.station == s && r.latitude == la && r.longitude == lo &&
    r.wday == d

/-- Daily ENTRIES total of station `s` at `(la, lo)` on weekday index `d`. -/
def dayTotalEntries (rows : List NRow) (w : Nat) (s : String) (la lo : Int)
    (d : Nat) : Int :=
  ((rows.filter (obsMatch w s la lo d)).map NRow.entries).sum

/-- Daily EXITS total of station `s` at `(la, lo)` on weekday index `d`. -/
def dayTotalExits (rows : List NRow) (w : Nat) (s : String) (la lo : Int)
    (d : Nat) : Int :=
  ((rows.filter (obsMatch w s la lo d)).map NRow.exits).sum

/-- The weekday indices of the chosen side (weekend iff `wk`) on which the
station was observed in week `w`. -/
def sideDays (rows : List NRow) (w : Nat) (s : String) (la lo : Int)
    (wk : Bool) : List Nat :=
  (List.range 7).filter fun d =>
    (rows.any (obsMatch w s la lo d)) && (decide (d > 4) == wk)

/-- Mean daily ENTRIES total over the chosen side's observed days. -/
def sideMeanEntries (rows : List NRow) (w : Nat) (s : String) (la lo : Int)
    (wk : Bool) : Rat :=
  (((sideDays rows w s la lo wk).map fun d =>
    ((dayTotalEntries rows w s la lo d : Int) : Rat)).sum) /
    ((sideDays rows w s la lo wk).length : Rat)

/-- Mean daily EXITS total over the chosen side's observed days. -/
def sideMeanExits (rows : List NRow) (w : Nat) (s : String) (la lo : Int)
    (wk : Bool) : Rat :=
  (((sideDays rows w s la lo wk).map fun d =>
    ((dayTotalExits rows w s la lo d : Int) : Rat)).sum) /
    ((sideDays rows w s la lo wk).length : Rat)

/-! ### Adjacent-pair view and concrete sample data used by the theorems -/

/-- The adjacent-pair view of deaggregation: the delta row contributed by a
consecutive sorted pair (previous, current) sharing a TURNSTILE_ID. -/
def mkAdjRow (pc : TRow × TRow) : Option DRow :=
  if pc.1.turnstile_id = pc.2.turnstile_id then
    some (mkDRow pc.2 (pc.2.entriesCum - pc.1.entriesCum)
      (pc.2.exitsCum - pc.1.exitsCum))
  else none

def c2Coords : List CoordRow := [⟨"MAIN ST", 405, -738⟩]

def c2Raw (ca u scp st d t : String) (e x : Int) : RawRow :=
  ⟨ca, u, scp, st, "456", "BMT", d, t, "REGULAR", e, x⟩

def c2Frame : RawFrame :=
  { columns := correct_column_names,
    rows := [c2Raw "B" "R2" "01" "MAIN ST" "03/20/2020" "09:00:00" 500 600,
             c2Raw "A" "R1" "02" "MAIN ST" "03/20/2020" "12:00:00" 150 207,
             c2Raw "A" "R1" "02" "MAIN ST" "03/20/2020" "08:00:00" 100 200] }

def c2Out : List CleanRow :=
  [{ ca := "A", unit := "R1", scp := "02", station := "MAIN ST",
     linename := "456", division := "BMT", date := "03/20/2020",
     time := "12:00:00", desc := "REGULAR",
     datetime := ⟨2020, 3, 20, 12, 0, 0⟩,
     turnstile_id := "A_R1_02_MAIN ST", entries := 50, exits := 7,
     wdayNum := 4, weekdayName := "Friday", week := 12, hour := 12,
     latitude := 405, longitude := -738 }]

def c1Coords : List CoordRow := [⟨"MAIN ST", 405, -738⟩]

def c1Frame : RawFrame :=
  { columns := correct_column_names,
    rows := [c2Raw "A" "R1" "02" "MAIN ST" "03/20/2020" "08:00:00" 100 200,
             c2Raw "A" "R1" "02" "MAIN ST" "03/20/2020" "12:00:00" 150 200] }

def c3Cols : List String :=
  ["C/A", "UNIT", "SCP", "STATION", "LINENAME", "DIVISION", "DATE",
   "TIME", "DESCRIPTION", "ENTRIES", "EXITS"]

def c3Frame : RawFrame :=
  { columns := c3Cols,
    rows := [c2Raw "A" "R1" "02" "MAIN ST" "03/20/2020" "08:00:00" 100 200,
             c2Raw "A" "R1" "02" "MAIN ST" "03/20/2020" "12:00:00" 150 207] }

/-! ### Concrete collaborator instances and sample data for the
`import_data` claims -/

/-- A concrete stand-in for `pd.to_datetime` on the catalog's display text:
digit strings denote day numbers, anything else fails to parse. -/
def catalogDateVal (s : String) : Option Int :=
  (digitsVal s.data).map Int.ofNat

/-- A raw row tagged with the URL it was fetched from (so that concatenation
order is visible in tests). -/
def urlRow (u : String) : RawRow := ⟨u, "", "", "", "", "", "", "", "", 0, 0⟩

/-- A fetch collaborator that always succeeds, returning one tagged row. -/
def fetchTag : String → Except PyExc (List RawRow) :=
  fun u => Except.ok [urlRow u]

/-- A matching catalog anchor whose display text is `txt`, linking
`data/nyct/turnstile/turnstile_<txt>.txt`. -/
def mkAnchor (txt : String) : Anchor :=
  ⟨some ("data/nyct/turnstile/turnstile_" ++ txt ++ ".txt"), txt⟩

def c5Anchors : List Anchor := [mkAnchor "6", mkAnchor "7", mkAnchor "8"]

def c5Links : List LinkRow :=
  [⟨"6", mtaBasePath ++ "data/nyct/turnstile/turnstile_6.txt"⟩,
   ⟨"7", mtaBasePath ++ "data/nyct/turnstile/turnstile_7.txt"⟩,
   ⟨"8", mtaBasePath ++ "data/nyct/turnstile/turnstile_8.txt"⟩]

def c7BadUrl : String := mtaBasePath ++ "data/nyct/turnstile/turnstile_1.txt"

/-- A fetch collaborator for which exactly one source URL fails. -/
def c7Fetch : String → Except PyExc (List RawRow) :=
  fun u => if u = c7BadUrl then Except.error PyExc.httpError
    else Except.ok [urlRow u]

def c7Anchors : List Anchor := [mkAnchor "1", mkAnchor "2"]

def c8NoMatchAnchors : List Anchor :=
  [⟨some "resources/nyct/elevators.html", "about"⟩, ⟨none, "home"⟩]

def c8TwoMatchAnchors : List Anchor :=
  [mkAnchor "3", ⟨none, "home"⟩, mkAnchor "4"]

def c9Anchors : List Anchor := [mkAnchor "5", mkAnchor "springbreak"]

def c10Anchors : List Anchor := [mkAnchor "7"]

/-! ### Concrete sample frames for the aggregation claims -/

def c4Frame : NFrame :=
  ⟨false, [⟨"A", 0, 1, 2, 10, 20, 1⟩, ⟨"A", 5, 1, 2, 4, 6, 1⟩]⟩

def c4WFrame : NFrame :=
  ⟨true, [⟨"A", 0, 1, 2, 10, 20, 1⟩, ⟨"A", 5, 1, 2, 4, 6, 1⟩]⟩

def c6Frame : NFrame := ⟨false, [⟨"C", 1, 3, 4, 7, 8, 1⟩]⟩

def c6WFrame : NFrame :=
  ⟨true, [⟨"A", 2, 1, 2, 5, 5, 1⟩, ⟨"B", 1, 3, 4, 10, 20, 1⟩,
          ⟨"B", 6, 3, 4, 2, 3, 1⟩]⟩
/-! ### Supporting lemmas -/

lemma dropnaRename_cons_none (r : TRow)
    (xs : List (TRow × Option Int × Option Int)) :
    dropnaRename ((r, none, none) :: xs) = dropnaRename xs := by
  simp [dropnaRename, List.filterMap_cons]

lemma dropnaRename_cons_some (r : TRow) (e x : Int)
    (xs : List (TRow × Option Int × Option Int)) :
    dropnaRename ((r, some e, some x) :: xs) =
      mkDRow r e x :: dropnaRename xs := by
  simp [dropnaRename, List.filterMap_cons]

lemma dropnaRename_diffMask_some (p : TRow) (l : List TRow) :
    dropnaRename (diffMask (some p) l) =
      ((p :: l).zip l).filterMap mkAdjRow := by
  induction l generalizing p with
  | nil => rfl
  | cons r rs ih =>
    by_cases h : p.turnstile_id = r.turnstile_id
    · have e1 : diffMask (some p) (r :: rs) =
          (r, some (r.entriesCum - p.entriesCum),
            some (r.exitsCum - p.exitsCum)) :: diffMask (some r) rs := by
        simp [diffMask, h]
      have e2 : mkAdjRow (p, r) = some (mkDRow r
          (r.entriesCum - p.entriesCum) (r.exitsCum - p.exitsCum)) := by
        simp [mkAdjRow, h]
      rw [e1, dropnaRename_cons_some, ih r, List.zip_cons_cons,
        List.filterMap_cons, e2]
    · have e1 : diffMask (some p) (r :: rs) =
          (r, none, none) :: diffMask (some r) rs := by
        simp [diffMask, h]
      have e2 : mkAdjRow (p, r) = none := by simp [mkAdjRow, h]
      rw [e1, dropnaRename_cons_none, ih r, List.zip_cons_cons,
        List.filterMap_cons, e2]

lemma deaggregate_eq_zip (l : List TRow) :
    deaggregate l = (l.zip l.tail).filterMap mkAdjRow := by
  cases l with
  | nil => rfl
  | cons r rs =>
    show dropnaRename (diffMask none (r :: rs)) = _
    rw [show diffMask none (r :: rs) = (r, none, none) :: diffMask (some r) rs
      from rfl]
    rw [dropnaRename_cons_none, dropnaRename_diffMask_some]
    rfl

lemma mem_zip_tail {α : Type _} {l : List α} {pc : α × α}
    (h : pc ∈ l.zip l.tail) :
    ∃ i, l.get? i = some pc.1 ∧ l.get? (i + 1) = some pc.2 := by
  induction l with
  | nil => simp at h
  | cons a l' ih =>
    cases l' with
    | nil => simp at h
    | cons b l'' =>
      rcases List.mem_cons.mp h with he | hm
      · exact ⟨0, by simp [he], by simp [he]⟩
      · obtain ⟨i, h1, h2⟩ := ih hm
        exact ⟨i + 1, by simpa using h1, by simpa using h2⟩

lemma mem_of_mem_anomalyFilter {d : DRow} {l : List DRow}
    (h : d ∈ anomalyFilter l) : d ∈ l := by
  simp only [anomalyFilter, List.mem_filter] at h
  exact h.1.1.1.1

lemma mem_mergeCoords {c : CleanRow} {coords : List CoordRow} {l : List DRow}
    (h : c ∈ mergeCoords coords l) :
    ∃ d ∈ l, c.entries = d.entries ∧ c.exits = d.exits := by
  simp only [mergeCoords, List.mem_flatMap, List.mem_map, List.mem_filter]
    at h
  obtain ⟨d, hd, co, hco, rfl⟩ := h
  exact ⟨d, hd, rfl, rfl⟩

lemma cleanse_data_ok_inv {coords : List CoordRow} {f : RawFrame}
    {out : List CleanRow} (h : cleanse_data coords f = Except.ok out) :
    ∃ trows, toTRows (f.rows.map strip_spaces) = Except.ok trows ∧
      out = cleanse_core coords trows := by
  simp only [cleanse_data] at h
  split at h
  · exact absurd h (by simp)
  · split at h
    · exact absurd h (by simp)
    · split at h
      · exact absurd h (by simp)
      · rename_i trows ht
        split at h
        · exact absurd h (by simp)
        · exact ⟨trows, ht, (Except.ok.injEq _ _).mp h.symm⟩

/-- Claim C2: after sorting by (TurnstileID, timestamp) ascending, every
output row's ENTRIES (resp. EXITS) equals its source row's cumulative
counter minus the immediately preceding sorted row's counter, those two rows
sharing a TurnstileID; and the deaggregation stage produces exactly one row
per adjacent same-TurnstileID pair of the sorted sequence, so the first row
of every device's sequence contributes nothing to the output. -/
theorem cleanse_data_deltas_adjacent (coords : List CoordRow) (f : RawFrame)
    (out : List CleanRow) (h : cleanse_data coords f = Except.ok out) :
    ∃ trows, toTRows (f.rows.map strip_spaces) = Except.ok trows ∧
      deaggregate (sortRows trows) =
        ((sortRows trows).zip (sortRows trows).tail).filterMap mkAdjRow ∧
      ∀ r ∈ out, ∃ i p c,
        (sortRows trows).get? i = some p ∧
        (sortRows trows).get? (i + 1) = some c ∧
        p.turnstile_id = c.turnstile_id ∧
        r.entries = c.entriesCum - p.entriesCum ∧
        r.exits = c.exitsCum - p.exitsCum := by
  obtain ⟨trows, ht, rfl⟩ := cleanse_data_ok_inv h
  refine ⟨trows, ht, deaggregate_eq_zip _, ?_⟩
  intro r hr
  obtain ⟨d, hd, he, hx⟩ := mem_mergeCoords hr
  have hd' : d ∈ deaggregate (sortRows trows) :=
    mem_of_mem_anomalyFilter hd
  rw [deaggregate_eq_zip] at hd'
  obtain ⟨pc, hpc, hmk⟩ := List.mem_filterMap.mp hd'
  obtain ⟨i, h1, h2⟩ := mem_zip_tail hpc
  by_cases htid : pc.1.turnstile_id = pc.2.turnstile_id
  · rw [mkAdjRow, if_pos htid] at hmk
    refine ⟨i, pc.1, pc.2, h1, h2, htid, ?_, ?_⟩
    · rw [he, ← Option.some_inj.mp hmk]; rfl
    · rw [hx, ← Option.some_inj.mp hmk]; rfl
  · rw [mkAdjRow, if_neg htid] at hmk
    exact absurd hmk (by simp)

/-- Witness for claim C2 at a concrete three-reading dataset: device A has
readings (100, 200) then (150, 207), device B a single reading; the output
is exactly device A's second reading with deltas (50, 7). -/
theorem cleanse_data_deltas_adjacent_witness :
    cleanse_data c2Coords c2Frame = Except.ok c2Out ∧
    (∃ trows, toTRows (c2Frame.rows.map strip_spaces) = Except.ok trows ∧
      deaggregate (sortRows trows) =
        ((sortRows trows).zip (sortRows trows).tail).filterMap mkAdjRow ∧
      ∀ r ∈ c2Out, ∃ i p c,
        (sortRows trows).get? i = some p ∧
        (sortRows trows).get? (i + 1) = some c ∧
        p.turnstile_id = c.turnstile_id ∧
        r.entries = c.entriesCum - p.entriesCum ∧
        r.exits = c.exitsCum - p.exitsCum) :=
  ⟨rfl, cleanse_data_deltas_adjacent c2Coords c2Frame c2Out rfl⟩

/-- Claim C1 (code bug): the fourth anomaly filter of `cleanse_data` repeats
`ENTRIES > 0` instead of testing `EXITS > 0`, so a row whose EXITS delta is
exactly 0 survives: two same-device readings with cumulative exits 200 then
200 produce an output row with EXITS = 0, which the claim says can never
appear. -/
theorem cleanse_data_retains_zero_exit_delta :
    (cleanse_data c1Coords c1Frame).toOption.map
      (List.map fun r => (r.entries, r.exits)) = some [(50, 0)] := rfl

/-- Claim C3 (code bug): `check_column_names` validates with
`assert ValueError(...)`, which asserts a truthy exception object and never
raises; a column set of the right length with a wrong name (DESCRIPTION
instead of DESC) passes the check, and `cleanse_data` proceeds to a normal
result instead of failing with the schema error its docstring promises. -/
theorem check_column_names_passes_wrong_column_set :
    check_column_names c3Cols = Except.ok () ∧
    (cleanse_data c1Coords c3Frame).toOption.map List.length = some 1 :=
  ⟨rfl, rfl⟩

lemma find_links_ok_inv {parseDate : String → Option Int}
    {anchors : List Anchor} {fr : LinksFrame}
    (h : find_links parseDate anchors = Except.ok fr) :
    fr.datesParsed = fr.rows.all (fun r => (parseDate r.dateText).isSome) := by
  simp only [find_links, pyAssert, exceptionObjTruthy, if_pos] at h
  split at h
  · exact absurd h (by simp)
  · obtain rfl := (Except.ok.injEq _ _).mp h
    rfl

lemma find_links_ok_of_match (parseDate : String → Option Int)
    {anchors : List Anchor} {a : Anchor} (ha : a ∈ anchors)
    (hm : anchorMatches a = true) :
    ∃ fr, find_links parseDate anchors = Except.ok fr ∧
      ∃ r ∈ fr.rows, r.dateText = a.text := by
  cases hh : a.href with
  | none => rw [anchorMatches, hh] at hm; exact absurd hm (by simp)
  | some u =>
    rw [anchorMatches, hh] at hm
    have hm' : containsSub turnstileMarker.data u.data = true := by
      simpa using hm
    have hrow : (⟨a.text, mtaBasePath ++ u⟩ : LinkRow) ∈
        anchors.filterMap (fun a =>
          match a.href with
          | some h =>
            if containsSub turnstileMarker.data h.data then
              some ({ dateText := a.text, url := mtaBasePath ++ h } : LinkRow)
            else none
          | none => none) := by
      apply List.mem_filterMap.mpr
      exact ⟨a, ha, by rw [hh]; simp [hm']⟩
    rcases hfr : find_links parseDate anchors with e | fr
    · exfalso
      simp only [find_links, pyAssert, exceptionObjTruthy, if_pos] at hfr
      split at hfr
      · rename_i hc
        rw [List.length_eq_zero] at hc
        rw [hc] at hrow
        exact absurd hrow (by simp)
      · exact absurd hfr (by simp)
    · refine ⟨fr, rfl, ?_⟩
      simp only [find_links, pyAssert, exceptionObjTruthy, if_pos] at hfr
      split at hfr
      · exact absurd hfr (by simp)
      · obtain rfl := (Except.ok.injEq _ _).mp hfr
        exact ⟨_, hrow, rfl⟩

/-- Claim C9 (amended): when any matching anchor's display text fails to
parse, the whole-column datetime conversion is abandoned (every entry keeps
its raw string date), and `import_data`'s range mask then raises `TypeError`
comparing the string column with datetimes, instead of excluding the
unparseable entry. -/
theorem import_data_unparseable_date_fatal (parseDate : String → Option Int)
    (fetchCsv : String → Except PyExc (List RawRow)) (s e t : Int)
    (anchors : List Anchor) (hse : s ≤ e)
    (hbad : ∃ a ∈ anchors, anchorMatches a = true ∧ parseDate a.text = none) :
    import_data parseDate fetchCsv s (some e) t anchors =
      Except.error PyExc.typeError := by
  obtain ⟨a, ha, hm, hp⟩ := hbad
  obtain ⟨fr, hfr, r, hr, hrt⟩ := find_links_ok_of_match parseDate ha hm
  have hdp : fr.datesParsed = false := by
    rw [find_links_ok_inv hfr]
    by_cases hb : fr.rows.all (fun r => (parseDate r.dateText).isSome) = true
    · exact absurd ((List.all_eq_true.mp hb) r hr) (by simp [hrt, hp])
    · exact Bool.not_eq_true _ ▸ (Bool.eq_false_iff.mpr hb)
  simp only [import_data, Option.getD]
  rw [if_neg (by omega), hfr]
  simp [hdp]

/-- Witness for claim C9's amended statement at a concrete anchor list with
one parseable and one unparseable date. -/
theorem import_data_unparseable_date_fatal_witness :
    ((0 : Int) ≤ 9) ∧
    (∃ a ∈ c9Anchors, anchorMatches a = true ∧
      catalogDateVal a.text = none) ∧
    import_data catalogDateVal fetchTag 0 (some 9) 0 c9Anchors =
      Except.error PyExc.typeError :=
  ⟨by decide, by decide,
    import_data_unparseable_date_fatal catalogDateVal fetchTag 0 9 0
      c9Anchors (by decide) (by decide)⟩

/-- Claim C9 (counterexample): with anchors dated "5" (parseable) and
"springbreak" (unparseable), the Date column is left unconverted — the
parseable entry's date is not parsed either — and the subsequent range
filter in `import_data` raises `TypeError` instead of excluding the
unparseable entry. -/
theorem find_links_bad_date_blocks_whole_column :
    (find_links catalogDateVal c9Anchors).toOption.map LinksFrame.datesParsed
      = some false ∧
    import_data catalogDateVal fetchTag 0 (some 9) 0 c9Anchors =
      Except.error PyExc.typeError :=
  ⟨rfl, rfl⟩

/-- Claim C5: the catalog filter keeps exactly the entries with
`start < date ≤ end`; with catalog dates [6, 7, 8], start 6 and end 7 only
the entry dated 7 is fetched; and a zero-width range `start = end` keeps
nothing. -/
theorem filterCatalog_range_exact :
    (∀ (parseDate : String → Option Int) (s e : Int) (links : List LinkRow)
      (r : LinkRow),
      r ∈ filterCatalog parseDate s e links ↔
        r ∈ links ∧ ∃ d, parseDate r.dateText = some d ∧ s < d ∧ d ≤ e) ∧
    import_data catalogDateVal fetchTag 6 (some 7) 0 c5Anchors =
      Except.ok [urlRow (mtaBasePath ++ "data/nyct/turnstile/turnstile_7.txt")]
      ∧
    (∀ (parseDate : String → Option Int) (s : Int) (links : List LinkRow),
      filterCatalog parseDate s s links = []) := by
  refine ⟨?_, rfl, ?_⟩
  · intro parseDate s e links r
    rw [filterCatalog, List.mem_filter]
    apply and_congr_right
    intro _
    cases hp : parseDate r.dateText with
    | none => simp [hp]
    | some d => simp [hp, dateInRange]
  · intro parseDate s links
    apply List.filter_eq_nil_iff.mpr
    intro r _
    cases hp : parseDate r.dateText with
    | none => simp
    | some d => simp [dateInRange]

/-- Claim C7 (code bug): the fetch loop's `except HTTPError:` references the
undefined name `HTTPError`, so the first failing fetch raises `NameError`
and aborts the whole run — the sibling URL (which fetches fine on its own,
second conjunct) is never processed and no partial result is returned. -/
theorem import_data_fetch_failure_aborts :
    import_data catalogDateVal c7Fetch 0 (some 9) 0 c7Anchors =
      Except.error PyExc.nameError ∧
    import_data catalogDateVal c7Fetch 0 (some 9) 0 [mkAnchor "2"] =
      Except.ok [urlRow (mtaBasePath ++ "data/nyct/turnstile/turnstile_2.txt")]
    := ⟨rfl, rfl⟩

/-- Claim C8 (code bug): with zero matching anchors, `find_links` executes
`raise RunTimeError(...)` — a misspelling of `RuntimeError` — so the run
aborts with `NameError` rather than the intended no-matching-links error;
with matching anchors present it succeeds with one row per matching
anchor. -/
theorem find_links_zero_matches_nameError :
    find_links catalogDateVal c8NoMatchAnchors = Except.error PyExc.nameError
      ∧
    (find_links catalogDateVal c8TwoMatchAnchors).toOption.map
      (fun fr => fr.rows.length) = some 2 ∧
    (c8TwoMatchAnchors.filter anchorMatches).length = 2 :=
  ⟨rfl, rfl, rfl⟩

/-- Claim C10 (counterexample): `end_date` is an optional parameter whose
default is `datetime.datetime.now()` evaluated once at module import, so
with `end_date` omitted the result depends on the module load time: the same
call made under load times 5 and 10 gives different results. -/
theorem import_data_depends_on_load_time :
    import_data catalogDateVal fetchTag 0 none 5 c10Anchors ≠
      import_data catalogDateVal fetchTag 0 none 10 c10Anchors := by
  have h5 : import_data catalogDateVal fetchTag 0 none 5 c10Anchors =
      Except.ok [] := rfl
  have h10 : import_data catalogDateVal fetchTag 0 none 10 c10Anchors =
      Except.ok [urlRow
        (mtaBasePath ++ "data/nyct/turnstile/turnstile_7.txt")] := rfl
  rw [h5, h10]
  simp

/-- Claim C10 (amended): when the caller supplies `end_date` explicitly, the
result does not depend on the module load time. -/
theorem import_data_explicit_end_deterministic
    (parseDate : String → Option Int)
    (fetchCsv : String → Except PyExc (List RawRow)) (s e t1 t2 : Int)
    (anchors : List Anchor) :
    import_data parseDate fetchCsv s (some e) t1 anchors =
      import_data parseDate fetchCsv s (some e) t2 anchors := rfl


lemma lexLe_total [LinearOrder α] (le2 : β → β → Prop)
    (h : ∀ x y, le2 x y ∨ le2 y x) :
    ∀ p q : α × β, lexLe le2 p q ∨ lexLe le2 q p := by
  intro p q
  rcases lt_trichotomy p.1 q.1 with hlt | heq | hgt
  · exact Or.inl (Or.inl hlt)
  · rcases h p.2 q.2 with h2 | h2
    · exact Or.inl (Or.inr ⟨heq, h2⟩)
    · exact Or.inr (Or.inr ⟨heq.symm, h2⟩)
  · exact Or.inr (Or.inl hgt)

lemma lexLe_trans [LinearOrder α] (le2 : β → β → Prop)
    (h : ∀ x y z, le2 x y → le2 y z → le2 x z) :
    ∀ p q r : α × β, lexLe le2 p q → lexLe le2 q r → lexLe le2 p r := by
  intro p q r hpq hqr
  rcases hpq with h1 | ⟨e1, l1⟩
  · rcases hqr with h2 | ⟨e2, l2⟩
    · exact Or.inl (h1.trans h2)
    · exact Or.inl (e2 ▸ h1)
  · rcases hqr with h2 | ⟨e2, l2⟩
    · exact Or.inl (e1 ▸ h2)
    · exact Or.inr ⟨e1.trans e2, h _ _ _ l1 l2⟩

lemma intLeP_total : ∀ x y : Int, intLeP x y ∨ intLeP y x :=
  fun x y => le_total x y

lemma intLeP_trans : ∀ x y z : Int, intLeP x y → intLeP y z → intLeP x z :=
  fun _ _ _ h1 h2 => le_trans h1 h2

lemma coordLe_total : ∀ p q : Int × Int, coordLe p q ∨ coordLe q p :=
  lexLe_total _ intLeP_total

lemma coordLe_trans :
    ∀ p q r : Int × Int, coordLe p q → coordLe q r → coordLe p r :=
  lexLe_trans _ intLeP_trans

instance : IsTotal MKey mkeyLe :=
  ⟨lexLe_total _ (lexLe_total _ coordLe_total)⟩

instance : IsTrans MKey mkeyLe :=
  ⟨lexLe_trans _ (lexLe_trans _ coordLe_trans)⟩

lemma not_mkeyLe_true_false (s : String) (la lo : Int) :
    ¬ mkeyLe (s, true, la, lo) (s, false, la, lo) := by
  intro h
  rcases h with h | ⟨_, hb | ⟨he, _⟩⟩
  · exact lt_irrefl _ h
  · simp [Bool.lt_iff] at hb
  · simp at he

lemma before_of_pairwise {α : Type _} {le : α → α → Prop} {l : List α}
    {a b : α} (hp : l.Pairwise le) (ha : a ∈ l) (hb : b ∈ l)
    (hab : a ≠ b) (hnba : ¬ le b a) :
    ∃ l1 l2, l = l1 ++ a :: l2 ∧ b ∈ l2 := by
  induction l with
  | nil => simp at ha
  | cons x xs ih =>
    rcases List.mem_cons.mp ha with rfl | ha'
    · have hb' : b ∈ xs := by
        rcases List.mem_cons.mp hb with rfl | h
        · exact absurd rfl hab.symm
        · exact h
      exact ⟨[], xs, rfl, hb'⟩
    · have hb' : b ∈ xs := by
        rcases List.mem_cons.mp hb with rfl | h
        · exact absurd ((List.pairwise_cons.mp hp).1 a ha') hnba
        · exact h
      obtain ⟨l1, l2, heq, hbl2⟩ :=
        ih (List.pairwise_cons.mp hp).2 ha' hb'
      exact ⟨x :: l1, l2, by rw [heq]; rfl, hbl2⟩

lemma map_eq_append_cons_inv {α β : Type _} {f : α → β} {l : List α}
    {l1 : List β} {b : β} {l2 : List β} (h : l.map f = l1 ++ b :: l2) :
    ∃ m1 a m2, l = m1 ++ a :: m2 ∧ f a = b ∧
      l1 = m1.map f ∧ l2 = m2.map f := by
  induction l1 generalizing l with
  | nil =>
    cases l with
    | nil => simp at h
    | cons a as =>
      simp only [List.map_cons, List.nil_append, List.cons.injEq] at h
      exact ⟨[], a, as, rfl, h.1, rfl, h.2.symm⟩
  | cons c cs ih =>
    cases l with
    | nil => simp at h
    | cons a as =>
      simp only [List.map_cons, List.cons_append, List.cons.injEq] at h
      obtain ⟨hc, ht⟩ := h
      obtain ⟨m1, x, m2, he, hfx, h1, h2⟩ := ih ht
      exact ⟨a :: m1, x, m2, by rw [he, List.cons_append], hfx,
        by rw [h1, List.map_cons, hc], h2⟩

lemma nextInGroup_some_mem {r n : MeanRow} {l : List MeanRow}
    (h : nextInGroup r l = some n) : n ∈ l ∧ sameG r n = true := by
  induction l with
  | nil => simp [nextInGroup] at h
  | cons x xs ih =>
    by_cases hs : sameG r x = true
    · rw [nextInGroup, if_pos hs] at h
      obtain rfl := Option.some_inj.mp h
      exact ⟨List.mem_cons_self _ _, hs⟩
    · rw [nextInGroup, if_neg hs] at h
      obtain ⟨hm, hg⟩ := ih h
      exact ⟨List.mem_cons_of_mem _ hm, hg⟩

lemma nextInGroup_skip {r : MeanRow} {l : List MeanRow} {y : MeanRow}
    (ys : List MeanRow) (hl : ∀ z ∈ l, sameG r z = false)
    (hy : sameG r y = true) :
    nextInGroup r (l ++ y :: ys) = some y := by
  induction l with
  | nil => simp [nextInGroup, hy]
  | cons z zs ih =>
    have hz : sameG r z = false := hl z (List.mem_cons_self _ _)
    rw [List.cons_append, nextInGroup, if_neg (by simp [hz])]
    exact ih (fun z' hz' => hl z' (List.mem_cons_of_mem _ hz'))

lemma diffRows_middle (l1 : List MeanRow) (x : MeanRow)
    (l2 : List MeanRow) :
    (x, (nextInGroup x l2).map (fun n => x.entries - n.entries),
        (nextInGroup x l2).map (fun n => x.exits - n.exits)) ∈
      diffRows (l1 ++ x :: l2) := by
  induction l1 with
  | nil => exact List.mem_cons_self _ _
  | cons y ys ih => exact List.mem_cons_of_mem _ ih

lemma diffRows_mem_inv {x : MeanRow × Option Rat × Option Rat}
    {l : List MeanRow} (h : x ∈ diffRows l) :
    ∃ l1 l2, l = l1 ++ x.1 :: l2 ∧
      x.2.1 = (nextInGroup x.1 l2).map (fun n => x.1.entries - n.entries) ∧
      x.2.2 = (nextInGroup x.1 l2).map (fun n => x.1.exits - n.exits) := by
  induction l with
  | nil => simp [diffRows] at h
  | cons y ys ih =>
    rcases List.mem_cons.mp h with he | hm
    · refine ⟨[], ys, ?_, ?_, ?_⟩ <;> (subst he; rfl)
    · obtain ⟨l1, l2, heq, h1, h2⟩ := ih hm
      exact ⟨y :: l1, l2, by rw [heq]; rfl, h1, h2⟩

lemma mem_sortKeys {α : Type _} [DecidableEq α] (le : α → α → Prop)
    [DecidableRel le] (l : List α) (a : α) :
    a ∈ l.dedup.insertionSort le ↔ a ∈ l := by
  rw [(List.perm_insertionSort le l.dedup).mem_iff, List.mem_dedup]

section C4Work

variable (rows : List NRow) (w : Nat) (s : String) (la lo : Int) (wk : Bool)

lemma kmem_char (k : DKey) :
    (k ∈ (((rows.filter fun r => r.week == w).map dkeyOf).dedup.insertionSort
        dkeyLe).filter (fun k => mkeyOfKey k == (s, wk, la, lo))) ↔
      ((∃ r ∈ rows, r.week = w ∧ dkeyOf r = k) ∧ k.1 = s ∧
        decide (k.2.1 > 4) = wk ∧ k.2.2.1 = la ∧ k.2.2.2 = lo) := by
  rw [List.mem_filter, mem_sortKeys, List.mem_map]
  simp only [List.mem_filter, mkeyOfKey, beq_iff_eq, Prod.mk.injEq]
  constructor
  · rintro ⟨⟨r, ⟨hr, hw⟩, hk⟩, h1, h2, h3, h4⟩
    exact ⟨⟨r, hr, by simpa using hw, hk⟩, h1, h2, h3, h4⟩
  · rintro ⟨⟨r, hr, hw, hk⟩, h1, h2, h3, h4⟩
    exact ⟨⟨r, ⟨hr, by simpa using hw⟩, hk⟩, h1, h2, h3, h4⟩

lemma daily_filter_as_keys :
    (groupSumDaily (rows.filter fun r => r.week == w)).filter
        (fun d => mkeyOf d == (s, wk, la, lo)) =
      ((((rows.filter fun r => r.week == w).map dkeyOf).dedup.insertionSort
          dkeyLe).filter (fun k => mkeyOfKey k == (s, wk, la, lo))).map
        (dailyRowOf (rows.filter fun r => r.week == w)) := by
  rw [groupSumDaily, List.filter_map]
  rfl

lemma kdays_nodup :
    (((((rows.filter fun r => r.week == w).map dkeyOf).dedup.insertionSort
        dkeyLe).filter (fun k => mkeyOfKey k == (s, wk, la, lo)))).Nodup :=
  ((List.perm_insertionSort dkeyLe _).filter _).nodup_iff.mpr
    ((List.nodup_dedup _).filter _)

lemma obsMatch_true_iff (d : Nat) (r : NRow) :
    obsMatch w s la lo d r = true ↔
      (r.week = w ∧ r.station = s ∧ r.latitude = la ∧ r.longitude = lo ∧
        r.wday = d) := by
  simp [obsMatch, and_assoc]

lemma kdays_perm (hw : ∀ r ∈ rows, r.wday ≤ 6) :
    (((((rows.filter fun r => r.week == w).map dkeyOf).dedup.insertionSort
        dkeyLe).filter (fun k => mkeyOfKey k == (s, wk, la, lo))).map
      (fun k => k.2.1)).Perm (sideDays rows w s la lo wk) := by
  apply (List.perm_ext_iff_of_nodup ?_ ?_).mpr
  · intro d
    rw [List.mem_map]
    constructor
    · rintro ⟨k, hk, rfl⟩
      obtain ⟨⟨r, hr, hrw, hrk⟩, h1, h2, h3, h4⟩ :=
        (kmem_char rows w s la lo wk k).mp hk
      rw [sideDays, List.mem_filter]
      have hwd : r.wday = k.2.1 := by rw [← hrk]; rfl
      refine ⟨List.mem_range.mpr ?_, ?_⟩
      · have := hw r hr
        omega
      · rw [Bool.and_eq_true]
        refine ⟨List.any_eq_true.mpr ⟨r, hr, ?_⟩, by simp [h2]⟩
        rw [obsMatch_true_iff]
        refine ⟨hrw, ?_, ?_, ?_, hwd⟩
        · rw [← h1, ← hrk]; rfl
        · rw [← h3, ← hrk]; rfl
        · rw [← h4, ← hrk]; rfl
    · intro hd
      rw [sideDays, List.mem_filter, Bool.and_eq_true] at hd
      obtain ⟨hd7, hany, hside⟩ := hd
      obtain ⟨r, hr, hobs⟩ := List.any_eq_true.mp hany
      obtain ⟨hrw, hrs, hrla, hrlo, hrd⟩ := (obsMatch_true_iff w s la lo d r).mp hobs
      refine ⟨(s, d, la, lo), ?_, rfl⟩
      apply (kmem_char rows w s la lo wk _).mpr
      refine ⟨⟨r, hr, hrw, ?_⟩, rfl, by simpa using hside, rfl, rfl⟩
      rw [dkeyOf, hrs, hrla, hrlo, hrd]
  · apply List.Nodup.map_on ?_ (kdays_nodup rows w s la lo wk)
    intro x hx y hy hxy
    obtain ⟨_, hx1, _, hx3, hx4⟩ := (kmem_char rows w s la lo wk x).mp hx
    obtain ⟨_, hy1, _, hy3, hy4⟩ := (kmem_char rows w s la lo wk y).mp hy
    have : x = (x.1, x.2.1, x.2.2.1, x.2.2.2) := rfl
    rw [this, hx1, hx3, hx4, hxy]
    have : y = (y.1, y.2.1, y.2.2.1, y.2.2.2) := rfl
    rw [this, hy1, hy3, hy4]
  · exact (List.nodup_range 7).filter _

lemma dailyRowOf_totals (k : DKey)
    (hk : k ∈ (((rows.filter fun r => r.week == w).map dkeyOf).dedup.insertionSort
        dkeyLe).filter (fun k => mkeyOfKey k == (s, wk, la, lo))) :
    (dailyRowOf (rows.filter fun r => r.week == w) k).entries =
        dayTotalEntries rows w s la lo k.2.1 ∧
      (dailyRowOf (rows.filter fun r => r.week == w) k).exits =
        dayTotalExits rows w s la lo k.2.1 := by
  obtain ⟨⟨r0, _, _, _⟩, h1, h2, h3, h4⟩ :=
    (kmem_char rows w s la lo wk k).mp hk
  have hfil : (rows.filter fun r => r.week == w).filter
      (fun r => dkeyOf r == k) = rows.filter (obsMatch w s la lo k.2.1) := by
    rw [List.filter_filter]
    apply List.filter_congr
    intro r _
    rw [Bool.eq_iff_iff]
    simp only [Bool.and_eq_true, beq_iff_eq, obsMatch_true_iff, dkeyOf]
    have hke : k = (k.1, k.2.1, k.2.2.1, k.2.2.2) := rfl
    rw [hke, Prod.mk.injEq, Prod.mk.injEq, Prod.mk.injEq, h1, h3, h4]
    constructor
    · rintro ⟨⟨hs, hd, hla, hlo⟩, hw⟩
      exact ⟨hw, hs, hla, hlo, hd⟩
    · rintro ⟨hw, hs, hla, hlo, hd⟩
      exact ⟨⟨hs, hd, hla, hlo⟩, hw⟩
  constructor
  · show ((((rows.filter fun r => r.week == w).filter
      (fun r => dkeyOf r == k)).map NRow.entries).sum) = _
    rw [hfil]; rfl
  · show ((((rows.filter fun r => r.week == w).filter
      (fun r => dkeyOf r == k)).map NRow.exits).sum) = _
    rw [hfil]; rfl

lemma meanRowOf_side_means (hw : ∀ r ∈ rows, r.wday ≤ 6) :
    (meanRowOf (groupSumDaily (rows.filter fun r => r.week == w))
        (s, wk, la, lo)).entries = sideMeanEntries rows w s la lo wk ∧
      (meanRowOf (groupSumDaily (rows.filter fun r => r.week == w))
        (s, wk, la, lo)).exits = sideMeanExits rows w s la lo wk := by
  have hsum_e : (((groupSumDaily (rows.filter fun r => r.week == w)).filter
      (fun d => mkeyOf d == (s, wk, la, lo))).map
        (fun d => (d.entries : Rat))).sum =
      ((sideDays rows w s la lo wk).map
        (fun d => ((dayTotalEntries rows w s la lo d : Int) : Rat))).sum := by
    have h1 : List.map ((fun d : DailyRow => (d.entries : Rat)) ∘
        dailyRowOf (rows.filter fun r => r.week == w))
          ((((rows.filter fun r => r.week == w).map dkeyOf).dedup.insertionSort
            dkeyLe).filter (fun k => mkeyOfKey k == (s, wk, la, lo))) =
        List.map ((fun d : Nat =>
          ((dayTotalEntries rows w s la lo d : Int) : Rat)) ∘
            (fun k : DKey => k.2.1))
          ((((rows.filter fun r => r.week == w).map dkeyOf).dedup.insertionSort
            dkeyLe).filter (fun k => mkeyOfKey k == (s, wk, la, lo))) :=
      List.map_congr_left (fun k hk =>
        congrArg (fun z : Int => (z : Rat))
          ((dailyRowOf_totals rows w s la lo wk k hk).1))
    rw [daily_filter_as_keys, List.map_map, h1, ← List.map_map]
    exact ((kdays_perm rows w s la lo wk hw).map _).sum_eq
  have hsum_x : (((groupSumDaily (rows.filter fun r => r.week == w)).filter
      (fun d => mkeyOf d == (s, wk, la, lo))).map
        (fun d => (d.exits : Rat))).sum =
      ((sideDays rows w s la lo wk).map
        (fun d => ((dayTotalExits rows w s la lo d : Int) : Rat))).sum := by
    have h1 : List.map ((fun d : DailyRow => (d.exits : Rat)) ∘
        dailyRowOf (rows.filter fun r => r.week == w))
          ((((rows.filter fun r => r.week == w).map dkeyOf).dedup.insertionSort
            dkeyLe).filter (fun k => mkeyOfKey k == (s, wk, la, lo))) =
        List.map ((fun d : Nat =>
          ((dayTotalExits rows w s la lo d : Int) : Rat)) ∘
            (fun k : DKey => k.2.1))
          ((((rows.filter fun r => r.week == w).map dkeyOf).dedup.insertionSort
            dkeyLe).filter (fun k => mkeyOfKey k == (s, wk, la, lo))) :=
      List.map_congr_left (fun k hk =>
        congrArg (fun z : Int => (z : Rat))
          ((dailyRowOf_totals rows w s la lo wk k hk).2))
    rw [daily_filter_as_keys, List.map_map, h1, ← List.map_map]
    exact ((kdays_perm rows w s la lo wk hw).map _).sum_eq
  have hlen : ((groupSumDaily (rows.filter fun r => r.week == w)).filter
      (fun d => mkeyOf d == (s, wk, la, lo))).length =
      (sideDays rows w s la lo wk).length := by
    rw [daily_filter_as_keys, List.length_map]
    have h := (kdays_perm rows w s la lo wk hw).length_eq
    rw [List.length_map] at h
    exact h
  constructor
  · show ((((groupSumDaily (rows.filter fun r => r.week == w)).filter
      (fun d => mkeyOf d == (s, wk, la, lo))).map
        (fun d => (d.entries : Rat))).sum) /
      (((groupSumDaily (rows.filter fun r => r.week == w)).filter
        (fun d => mkeyOf d == (s, wk, la, lo))).length : Rat) = _
    rw [hsum_e, hlen]
    rfl
  · show ((((groupSumDaily (rows.filter fun r => r.week == w)).filter
      (fun d => mkeyOf d == (s, wk, la, lo))).map
        (fun d => (d.exits : Rat))).sum) /
      (((groupSumDaily (rows.filter fun r => r.week == w)).filter
        (fun d => mkeyOf d == (s, wk, la, lo))).length : Rat) = _
    rw [hsum_x, hlen]
    rfl

end C4Work

lemma mkey_mem_sortedMeans {rows : List NRow} {w : Nat} {s : String}
    {la lo : Int} {wkb : Bool}
    (h : ∃ r ∈ rows, r.week = w ∧ r.station = s ∧ r.latitude = la ∧
      r.longitude = lo ∧ decide (r.wday > 4) = wkb) :
    (s, wkb, la, lo) ∈ (((groupSumDaily
      (rows.filter fun r => r.week == w)).map
        mkeyOf).dedup).insertionSort mkeyLe := by
  obtain ⟨r, hr, hrw, hrs, hrla, hrlo, hrwk⟩ := h
  rw [mem_sortKeys, List.mem_map]
  refine ⟨dailyRowOf (rows.filter fun r => r.week == w) (dkeyOf r), ?_, ?_⟩
  · rw [groupSumDaily, List.mem_map]
    refine ⟨dkeyOf r, ?_, rfl⟩
    rw [mem_sortKeys, List.mem_map]
    exact ⟨r, List.mem_filter.mpr ⟨hr, by simp [hrw]⟩, rfl⟩
  · show (r.station, decide (r.wday > 4), r.latitude, r.longitude) = _
    rw [hrs, hrla, hrlo, hrwk]

lemma sameG_meanRows_iff (daily : List DailyRow) (m1 m2 : MKey) :
    sameG (meanRowOf daily m1) (meanRowOf daily m2) = true ↔
      (m1.1 = m2.1 ∧ m1.2.2.1 = m2.2.2.1 ∧ m1.2.2.2 = m2.2.2.2) := by
  simp [sameG, meanRowOf, and_assoc]

/-- Claim C4 (amended): on an input frame that carries the `index` helper
column, a station observed (at fixed coordinates) on at least one weekday
and at least one weekend day of the target week gets an output row whose
Entry_diffs (resp. Exit_diffs) equals its mean daily weekday ENTRIES (resp.
EXITS) total minus its mean daily weekend total. -/
theorem wwd_diff_eq_weekday_minus_weekend (f : NFrame) (w : Nat)
    (s : String) (la lo : Int) (hidx : f.hasIndexCol = true)
    (hw : ∀ r ∈ f.rows, r.wday ≤ 6)
    (hwd : ∃ r ∈ f.rows, r.week = w ∧ r.station = s ∧ r.latitude = la ∧
      r.longitude = lo ∧ r.wday ≤ 4)
    (hwe : ∃ r ∈ f.rows, r.week = w ∧ r.station = s ∧ r.latitude = la ∧
      r.longitude = lo ∧ r.wday > 4) :
    ∃ out, weekday_weekend_traffic_differences f w = Except.ok out ∧
      ∃ o ∈ out, o.station = s ∧ o.latitude = la ∧ o.longitude = lo ∧
        o.entry_diffs = sideMeanEntries f.rows w s la lo false -
          sideMeanEntries f.rows w s la lo true ∧
        o.exit_diffs = sideMeanExits f.rows w s la lo false -
          sideMeanExits f.rows w s la lo true := by
  have hkF : ((s, false, la, lo) : MKey) ∈ (((groupSumDaily
      (f.rows.filter fun r => r.week == w)).map
        mkeyOf).dedup).insertionSort mkeyLe := by
    apply mkey_mem_sortedMeans
    obtain ⟨r, hr, h1, h2, h3, h4, h5⟩ := hwd
    exact ⟨r, hr, h1, h2, h3, h4, by simp; omega⟩
  have hkT : ((s, true, la, lo) : MKey) ∈ (((groupSumDaily
      (f.rows.filter fun r => r.week == w)).map
        mkeyOf).dedup).insertionSort mkeyLe := by
    apply mkey_mem_sortedMeans
    obtain ⟨r, hr, h1, h2, h3, h4, h5⟩ := hwe
    exact ⟨r, hr, h1, h2, h3, h4, by simp; omega⟩
  have hnd : ((((groupSumDaily (f.rows.filter fun r => r.week == w)).map
      mkeyOf).dedup).insertionSort mkeyLe).Nodup :=
    (List.perm_insertionSort mkeyLe _).nodup_iff.mpr (List.nodup_dedup _)
  have hsorted : List.Pairwise mkeyLe ((((groupSumDaily
      (f.rows.filter fun r => r.week == w)).map
        mkeyOf).dedup).insertionSort mkeyLe) :=
    List.sorted_insertionSort mkeyLe _
  obtain ⟨l1, l2, hsplit, hTl2⟩ := before_of_pairwise hsorted hkF hkT
    (by simp) (not_mkeyLe_true_false s la lo)
  obtain ⟨v1, v2, hl2⟩ := List.append_of_mem hTl2
  subst hl2
  rw [hsplit] at hnd
  have hndr := hnd.of_append_right
  have hkFv1 : ((s, false, la, lo) : MKey) ∉ v1 := fun hmem =>
    (List.nodup_cons.mp hndr).1 (List.mem_append_left _ hmem)
  have hkTv1 : ((s, true, la, lo) : MKey) ∉ v1 := fun hmem =>
    (List.nodup_append.mp (List.nodup_cons.mp hndr).2).2.2 hmem
      (List.mem_cons_self _ _)
  set daily := groupSumDaily (f.rows.filter fun r => r.week == w)
    with hdaily
  have hmeans : groupMean daily =
      l1.map (meanRowOf daily) ++ meanRowOf daily (s, false, la, lo) ::
        (v1.map (meanRowOf daily) ++ meanRowOf daily (s, true, la, lo) ::
          v2.map (meanRowOf daily)) := by
    rw [groupMean, hsplit, List.map_append, List.map_cons,
      List.map_append, List.map_cons]
  have hGT : sameG (meanRowOf daily (s, false, la, lo))
      (meanRowOf daily (s, true, la, lo)) = true := by
    rw [sameG_meanRows_iff]
    exact ⟨rfl, rfl, rfl⟩
  have hv1 : ∀ z ∈ v1.map (meanRowOf daily),
      sameG (meanRowOf daily (s, false, la, lo)) z = false := by
    intro z hz
    obtain ⟨m, hm, rfl⟩ := List.mem_map.mp hz
    rw [Bool.eq_false_iff]
    intro htrue
    obtain ⟨h1, h2, h3⟩ := (sameG_meanRows_iff daily _ m).mp htrue
    have hm4 : m = (m.1, m.2.1, m.2.2.1, m.2.2.2) := rfl
    cases hb : m.2.1 with
    | false =>
      apply hkFv1
      have hmeq : m = (s, false, la, lo) := by
        rw [hm4, ← h1, ← h2, ← h3, hb]
      rwa [hmeq] at hm
    | true =>
      apply hkTv1
      have hmeq : m = (s, true, la, lo) := by
        rw [hm4, ← h1, ← h2, ← h3, hb]
      rwa [hmeq] at hm
  have hnext : nextInGroup (meanRowOf daily (s, false, la, lo))
      (v1.map (meanRowOf daily) ++ meanRowOf daily (s, true, la, lo) ::
        v2.map (meanRowOf daily)) =
      some (meanRowOf daily (s, true, la, lo)) :=
    nextInGroup_skip _ hv1 hGT
  have helem := diffRows_middle (l1.map (meanRowOf daily))
    (meanRowOf daily (s, false, la, lo))
    (v1.map (meanRowOf daily) ++ meanRowOf daily (s, true, la, lo) ::
      v2.map (meanRowOf daily))
  rw [hnext, ← hmeans] at helem
  simp only [Option.map_some'] at helem
  refine ⟨(diffRows (groupMean daily)).filterMap (fun x =>
    match x with
    | (r, some de, some dx) =>
      some { station := r.station, latitude := r.latitude,
             longitude := r.longitude, entry_diffs := de, exit_diffs := dx }
    | _ => none), ?_, ?_⟩
  · rw [weekday_weekend_traffic_differences, hidx]
    rfl
  · refine ⟨⟨(meanRowOf daily (s, false, la, lo)).station,
      (meanRowOf daily (s, false, la, lo)).latitude,
      (meanRowOf daily (s, false, la, lo)).longitude,
      (meanRowOf daily (s, false, la, lo)).entries -
        (meanRowOf daily (s, true, la, lo)).entries,
      (meanRowOf daily (s, false, la, lo)).exits -
        (meanRowOf daily (s, true, la, lo)).exits⟩, ?_, rfl, rfl, rfl,
      ?_, ?_⟩
    · exact List.mem_filterMap.mpr ⟨_, helem, rfl⟩
    · show (meanRowOf daily (s, false, la, lo)).entries -
        (meanRowOf daily (s, true, la, lo)).entries = _
      rw [hdaily, (meanRowOf_side_means f.rows w s la lo false hw).1,
        (meanRowOf_side_means f.rows w s la lo true hw).1]
    · show (meanRowOf daily (s, false, la, lo)).exits -
        (meanRowOf daily (s, true, la, lo)).exits = _
      rw [hdaily, (meanRowOf_side_means f.rows w s la lo false hw).2,
        (meanRowOf_side_means f.rows w s la lo true hw).2]

lemma mkey_mem_sortedMeans_inv {rows : List NRow} {w : Nat} {mk : MKey}
    (h : mk ∈ (((groupSumDaily (rows.filter fun r => r.week == w)).map
      mkeyOf).dedup).insertionSort mkeyLe) :
    ∃ r ∈ rows, r.week = w ∧ r.station = mk.1 ∧ r.latitude = mk.2.2.1 ∧
      r.longitude = mk.2.2.2 ∧ decide (r.wday > 4) = mk.2.1 := by
  rw [mem_sortKeys, List.mem_map] at h
  obtain ⟨d, hd, hmk⟩ := h
  rw [groupSumDaily, List.mem_map] at hd
  obtain ⟨k, hk, hdk⟩ := hd
  rw [mem_sortKeys, List.mem_map] at hk
  obtain ⟨r, hr, hkr⟩ := hk
  have hrmem := List.mem_filter.mp hr
  subst hkr
  subst hdk
  refine ⟨r, hrmem.1, by simpa using hrmem.2, ?_, ?_, ?_, ?_⟩
  · rw [← hmk]; rfl
  · rw [← hmk]; rfl
  · rw [← hmk]; rfl
  · rw [← hmk]; rfl

/-- Claim C6 (amended): on an input frame that carries the `index` helper
column the function succeeds, a station with only weekday observations in
the target week produces no output row, and every output row's station has
both a weekday and a weekend observation (at the row's coordinates) in that
week. -/
theorem wwd_output_requires_both_sides (f : NFrame) (w : Nat) (s : String)
    (hidx : f.hasIndexCol = true) :
    ∃ out, weekday_weekend_traffic_differences f w = Except.ok out ∧
      ((∀ r ∈ f.rows, r.week = w → r.station = s → r.wday ≤ 4) →
        ∀ o ∈ out, o.station ≠ s) ∧
      (∀ o ∈ out,
        (∃ r ∈ f.rows, r.week = w ∧ r.station = o.station ∧
          r.latitude = o.latitude ∧ r.longitude = o.longitude ∧
          r.wday ≤ 4) ∧
        (∃ r ∈ f.rows, r.week = w ∧ r.station = o.station ∧
          r.latitude = o.latitude ∧ r.longitude = o.longitude ∧
          r.wday > 4)) := by
  set daily := groupSumDaily (f.rows.filter fun r => r.week == w)
    with hdaily
  have hboth : ∀ o : DiffRow, o ∈ (diffRows (groupMean daily)).filterMap
      (fun x => match x with
      | (r, some de, some dx) =>
        some (⟨r.station, r.latitude, r.longitude, de, dx⟩ : DiffRow)
      | _ => none) →
      (∃ r ∈ f.rows, r.week = w ∧ r.station = o.station ∧
        r.latitude = o.latitude ∧ r.longitude = o.longitude ∧
        r.wday ≤ 4) ∧
      (∃ r ∈ f.rows, r.week = w ∧ r.station = o.station ∧
        r.latitude = o.latitude ∧ r.longitude = o.longitude ∧
        r.wday > 4) := by
    intro o ho
    obtain ⟨x, hx, hgx⟩ := List.mem_filterMap.mp ho
    obtain ⟨r, od1, od2⟩ := x
    cases od1 with
    | none => exact absurd hgx (by simp)
    | some de =>
      cases od2 with
      | none => exact absurd hgx (by simp)
      | some dx =>
        have ho_eq : o = (⟨r.station, r.latitude, r.longitude, de, dx⟩ :
            DiffRow) := (Option.some_inj.mp hgx).symm
        obtain ⟨m1l, m2l, hml, hd1, hd2⟩ := diffRows_mem_inv hx
        obtain ⟨n, hn_eq, hn_val⟩ := (Option.map_eq_some'.mp hd1.symm)
        obtain ⟨hnmem, hsg⟩ := nextInGroup_some_mem hn_eq
        have hmlm : List.map (meanRowOf daily)
            (((daily.map mkeyOf).dedup).insertionSort mkeyLe) =
            m1l ++ r :: m2l := by rw [← hml]; rfl
        obtain ⟨u1, mk1, u2, hsm, hFmk1, hm1l, hm2l⟩ :=
          map_eq_append_cons_inv hmlm
        subst hm2l
        obtain ⟨mk2, hmk2, hFmk2⟩ := List.mem_map.mp hnmem
        have hndsm : (u1 ++ mk1 :: u2).Nodup := by
          rw [← hsm]
          exact (List.perm_insertionSort mkeyLe _).nodup_iff.mpr
            (List.nodup_dedup _)
        have hmk1ne : mk1 ≠ mk2 := by
          intro he
          exact (List.nodup_cons.mp hndsm.of_append_right).1 (he ▸ hmk2)
        have hsg12 : sameG (meanRowOf daily mk1) (meanRowOf daily mk2) =
            true := by
          rw [hFmk1, hFmk2]
          exact hsg
        obtain ⟨hg1, hg2, hg3⟩ := (sameG_meanRows_iff daily mk1 mk2).mp hsg12
        have hflag : mk1.2.1 ≠ mk2.2.1 := by
          intro hfe
          apply hmk1ne
          have e1 : mk1 = (mk1.1, mk1.2.1, mk1.2.2.1, mk1.2.2.2) := rfl
          have e2 : mk2 = (mk2.1, mk2.2.1, mk2.2.2.1, mk2.2.2.2) := rfl
          rw [e1, e2, hg1, hg2, hg3, hfe]
        have hmk1mem : mk1 ∈ (((groupSumDaily
            (f.rows.filter fun r => r.week == w)).map
              mkeyOf).dedup).insertionSort mkeyLe := by
          rw [← hdaily, hsm]
          exact List.mem_append_right _ (List.mem_cons_self _ _)
        have hmk2mem : mk2 ∈ (((groupSumDaily
            (f.rows.filter fun r => r.week == w)).map
              mkeyOf).dedup).insertionSort mkeyLe := by
          rw [← hdaily, hsm]
          exact List.mem_append_right _ (List.mem_cons_of_mem _ hmk2)
        obtain ⟨r1, hr1, hr1w, hr1s, hr1la, hr1lo, hr1f⟩ :=
          mkey_mem_sortedMeans_inv hmk1mem
        obtain ⟨r2, hr2, hr2w, hr2s, hr2la, hr2lo, hr2f⟩ :=
          mkey_mem_sortedMeans_inv hmk2mem
        have hosta : o.station = mk1.1 := by rw [ho_eq, ← hFmk1]; rfl
        have hola : o.latitude = mk1.2.2.1 := by rw [ho_eq, ← hFmk1]; rfl
        have holo : o.longitude = mk1.2.2.2 := by rw [ho_eq, ← hFmk1]; rfl
        cases hb1 : mk1.2.1 with
        | false =>
          have hb2 : mk2.2.1 = true := by
            cases hb2 : mk2.2.1 with
            | false => exact absurd (hb1.trans hb2.symm) hflag
            | true => rfl
          constructor
          · refine ⟨r1, hr1, hr1w, by rw [hosta, hr1s],
              by rw [hola, hr1la], by rw [holo, hr1lo], ?_⟩
            rw [hb1] at hr1f
            simp at hr1f
            omega
          · refine ⟨r2, hr2, hr2w, by rw [hosta, hg1, hr2s],
              by rw [hola, hg2, hr2la], by rw [holo, hg3, hr2lo], ?_⟩
            rw [hb2] at hr2f
            simp at hr2f
            omega
        | true =>
          have hb2 : mk2.2.1 = false := by
            cases hb2 : mk2.2.1 with
            | false => rfl
            | true => exact absurd (hb1.trans hb2.symm) hflag
          constructor
          · refine ⟨r2, hr2, hr2w, by rw [hosta, hg1, hr2s],
              by rw [hola, hg2, hr2la], by rw [holo, hg3, hr2lo], ?_⟩
            rw [hb2] at hr2f
            simp at hr2f
            omega
          · refine ⟨r1, hr1, hr1w, by rw [hosta, hr1s],
              by rw [hola, hr1la], by rw [holo, hr1lo], ?_⟩
            rw [hb1] at hr1f
            simp at hr1f
            omega
  refine ⟨_, ?_, ?_, hboth⟩
  · rw [weekday_weekend_traffic_differences, hidx]
    rfl
  · intro honly o ho hos
    obtain ⟨r2, hr2, hw2, hs2, _, _, hwd2⟩ := (hboth o ho).2
    rw [hos] at hs2
    have := honly r2 hr2 hw2 hs2
    omega


/-- Claim C4 (counterexample): on a frame with the NormalizedReading schema
(no `index` column) whose station "A" has both a weekday and a weekend
observation, the function raises `KeyError` at
`drop(["WDAY", "index", "WEEK", "HOUR"], axis=1)` and produces no
entry_diff at all. -/
theorem wwd_errors_on_normalized_schema :
    weekday_weekend_traffic_differences c4Frame 1 =
      Except.error PyExc.keyError ∧
    (weekday_weekend_traffic_differences c4Frame 1).toOption = none :=
  ⟨rfl, rfl⟩

/-- Witness for claim C4's amended statement at a concrete frame: station
"A" at (1, 2) observed Monday (10 entries, 20 exits) and Saturday
(4 entries, 6 exits) of week 1. -/
theorem wwd_diff_eq_weekday_minus_weekend_witness :
    c4WFrame.hasIndexCol = true ∧
    (∀ r ∈ c4WFrame.rows, r.wday ≤ 6) ∧
    (∃ r ∈ c4WFrame.rows, r.week = 1 ∧ r.station = "A" ∧ r.latitude = 1 ∧
      r.longitude = 2 ∧ r.wday ≤ 4) ∧
    (∃ r ∈ c4WFrame.rows, r.week = 1 ∧ r.station = "A" ∧ r.latitude = 1 ∧
      r.longitude = 2 ∧ r.wday > 4) ∧
    (∃ out, weekday_weekend_traffic_differences c4WFrame 1 =
        Except.ok out ∧
      ∃ o ∈ out, o.station = "A" ∧ o.latitude = 1 ∧ o.longitude = 2 ∧
        o.entry_diffs = sideMeanEntries c4WFrame.rows 1 "A" 1 2 false -
          sideMeanEntries c4WFrame.rows 1 "A" 1 2 true ∧
        o.exit_diffs = sideMeanExits c4WFrame.rows 1 "A" 1 2 false -
          sideMeanExits c4WFrame.rows 1 "A" 1 2 true) :=
  ⟨rfl, by decide, by decide, by decide,
    wwd_diff_eq_weekday_minus_weekend c4WFrame 1 "A" 1 2 rfl (by decide)
      (by decide) (by decide)⟩

/-- Claim C6 (counterexample): on a frame with the NormalizedReading schema
(no `index` column) whose station "C" has only weekday data in the target
week, the function raises `KeyError` — the exclusion is not silent. -/
theorem wwd_weekday_only_errors_without_index :
    weekday_weekend_traffic_differences c6Frame 1 =
      Except.error PyExc.keyError ∧
    (weekday_weekend_traffic_differences c6Frame 1).toOption = none :=
  ⟨rfl, rfl⟩

/-- Witness for claim C6's amended statement at a concrete frame: station
"A" appears only on a weekday of week 1, station "B" on both a weekday and
a weekend day. -/
theorem wwd_output_requires_both_sides_witness :
    c6WFrame.hasIndexCol = true ∧
    (∀ r ∈ c6WFrame.rows, r.week = 1 → r.station = "A" → r.wday ≤ 4) ∧
    (∃ out, weekday_weekend_traffic_differences c6WFrame 1 =
        Except.ok out ∧
      ((∀ r ∈ c6WFrame.rows, r.week = 1 → r.station = "A" → r.wday ≤ 4) →
        ∀ o ∈ out, o.station ≠ "A") ∧
      (∀ o ∈ out,
        (∃ r ∈ c6WFrame.rows, r.week = 1 ∧ r.station = o.station ∧
          r.latitude = o.latitude ∧ r.longitude = o.longitude ∧
          r.wday ≤ 4) ∧
        (∃ r ∈ c6WFrame.rows, r.week = 1 ∧ r.station = o.station ∧
          r.latitude = o.latitude ∧ r.longitude = o.longitude ∧
          r.wday > 4))) :=
  ⟨rfl, by decide, wwd_output_requires_both_sides c6WFrame 1 "A" rfl⟩
